import Mathlib

/-!
Shallow embedding of `src/channel.hpp` (template class `channel<T, N>`).

The channel object owns a ring buffer `buf_` of `N` cells with indices
`in_` and `out_`, a single rendezvous cell `val_` with flag `has_val_`,
and a boolean `closed_`.  All operations are modelled as pure functions
on a state record; the condition-variable waits of the blocking
operations are modelled by their predicate: when the predicate is false
at entry the operation is `blocked` (the thread stays in the wait),
when it is true the operation completes in one step.  Notifications
issued by an operation (`notify_one` / `notify_all` on `consumers_` or
`producers_`) are recorded in an explicit list so that statements about
waking waiters can be made.  Mutex acquisition is not contended in this
sequential model, so the `try_to_lock` failure branch of the `try_`
operations never fires.
-/

namespace Channels

/-- `enum class channel_error` from src/channel.hpp lines 13-17. -/
inductive channel_error where
  | channel_closed
  | would_block
  | closed_and_drained
deriving DecidableEq, Repr

/-- A notification issued on one of the two condition variables
(`consumers_`, `producers_`), via `notify_one` or `notify_all`. -/
inductive note where
  | consumers_one
  | consumers_all
  | producers_one
  | producers_all
deriving DecidableEq, Repr

/-- The fields of `channel<T, N>` (src/channel.hpp lines 85-99).
The array `buf_` is a list of length `N`; the code only ever asks the
array for its size (`buf_.size()`), so the capacity is `buf.length`. -/
structure chanState (Val : Type) where
  buf : List Val
  inIdx : Nat
  outIdx : Nat
  val : Val
  has_val : Bool
  closed : Bool
deriving DecidableEq, Repr

variable {Val : Type}

/-- `is_empty` (lines 273-276): `in_ == out_`. -/
def is_empty (st : chanState Val) : Bool :=
  st.inIdx == st.outIdx

/-- `is_full` (lines 293-296): `(in_ + 1) % buf_.size() == out_`. -/
def is_full (st : chanState Val) : Bool :=
  (st.inIdx + 1) % st.buf.length == st.outIdx

/-- `is_buffered` (lines 278-281): `buf_.size() > 1`. -/
def is_buffered (st : chanState Val) : Bool :=
  decide (st.buf.length > 1)

/-- `is_closed` (lines 283-286): returns `closed_`. -/
def is_closed (st : chanState Val) : Bool :=
  st.closed

/-- `close` (lines 288-291): sets `closed_ = true`.  The body contains
no `notify` call, so the list of notifications issued is empty. -/
def close (st : chanState Val) : chanState Val × List note :=
  ({ st with closed := true }, [])

/-- Wait predicate of the producer wait in `put_buffered`
(line 157): `!is_full()`. -/
def put_buffered_wait (st : chanState Val) : Bool :=
  !is_full st

/-- Wait predicate of the producer wait in `put_unbuffered`
(lines 181-184): `!has_val_`. -/
def put_unbuffered_wait (st : chanState Val) : Bool :=
  !st.has_val

/-- Wait predicate of the consumer wait in `get_buffered`
(line 220): `!is_empty()`. -/
def get_buffered_wait (st : chanState Val) : Bool :=
  !is_empty st

/-- Wait predicate of the consumer wait in `get_unbuffered`
(lines 197-198): `has_val_`. -/
def get_unbuffered_wait (st : chanState Val) : Bool :=
  st.has_val

/-- Outcome of a `put` call.  `ok` carries the new state and the
notifications issued; `blocked` means the wait predicate was false so
the calling thread stays in the condition-variable wait; `thrown`
carries the exception message of the `std::runtime_error` together
with the channel state at the moment the exception leaves `put` (the
code throws before touching any field, lines 118-120 and 130-132);
`err` is a send failing with a returned `channel_error` value — the
specification asserts such failures, but `put` returns `void` in the
code, so no code path below ever builds this constructor. -/
inductive putResult (Val : Type) where
  | ok : chanState Val → List note → putResult Val
  | blocked : putResult Val
  | thrown : String → chanState Val → putResult Val
  | err : channel_error → putResult Val
deriving DecidableEq, Repr

/-- The deposit step of `put_buffered` (lines 158-159): write the value
at `in_` and advance `in_` by one modulo `buf_.size()`. -/
def deposit (st : chanState Val) (v : Val) : chanState Val :=
  { st with buf := st.buf.set st.inIdx v,
            inIdx := (st.inIdx + 1) % st.buf.length }

/-- The extraction step of `get_buffered` / `try_get_buffered`
(lines 221-222 and 247-248): advance `out_` by one modulo
`buf_.size()` after moving `buf_[out_]` out.  The moved-from array
cell keeps its old contents in the model. -/
def advanceOut (st : chanState Val) : chanState Val :=
  { st with outIdx := (st.outIdx + 1) % st.buf.length }

/-- `put_buffered` (lines 152-162): wait for `!is_full()`, store at
`in_`, advance `in_` modulo `buf_.size()`, then `consumers_.notify_all()`. -/
def put_buffered (st : chanState Val) (v : Val) : putResult Val :=
  if put_buffered_wait st then
    .ok (deposit st v) [.consumers_all]
  else
    .blocked

/-- `put_unbuffered` (lines 176-189): wait for `!has_val_`, store the
value, set `has_val_ = true`, then `consumers_.notify_all()`. -/
def put_unbuffered (st : chanState Val) (v : Val) : putResult Val :=
  if put_unbuffered_wait st then
    .ok { st with val := v, has_val := true } [.consumers_all]
  else
    .blocked

/-- `put` (lines 116-138): if `closed_`, throw
`std::runtime_error("Error: attempted to put to a closed channel.")`;
otherwise dispatch on `is_buffered()`. -/
def put (st : chanState Val) (v : Val) : putResult Val :=
  if st.closed then
    .thrown "Error: attempted to put to a closed channel." st
  else if is_buffered st then
    put_buffered st v
  else
    put_unbuffered st v

/-- Outcome of a `get` / `try_get` call: a received value with the new
state and notifications, a returned `channel_error`, or a blocked wait. -/
inductive getResult (Val : Type) where
  | ok : Val → chanState Val → List note → getResult Val
  | err : channel_error → getResult Val
  | blocked : getResult Val
deriving DecidableEq, Repr

/-- `get_buffered` (lines 214-226): wait for `!is_empty()`, move
`buf_[out_]` out, advance `out_`, then `producers_.notify_all()`.
The moved-from array cell is left in place (its contents are
unspecified in C++ after the move; the model keeps the old value). -/
def get_buffered [Inhabited Val] (st : chanState Val) : getResult Val :=
  if get_buffered_wait st then
    .ok (st.buf.getD st.outIdx default) (advanceOut st) [.producers_all]
  else
    .blocked

/-- `get_unbuffered` (lines 191-204): wait for `has_val_`, move `val_`
out, set `has_val_ = false`, then `producers_.notify_all()`. -/
def get_unbuffered (st : chanState Val) : getResult Val :=
  if get_unbuffered_wait st then
    .ok st.val { st with has_val := false } [.producers_all]
  else
    .blocked

/-- `get` (lines 206-212): if `closed_`, return
`unexpected(channel_error::channel_closed)`; otherwise dispatch on
`is_buffered()`. -/
def get [Inhabited Val] (st : chanState Val) : getResult Val :=
  if st.closed then
    .err .channel_closed
  else if is_buffered st then
    get_buffered st
  else
    get_unbuffered st

/-- `try_get_buffered` (lines 235-252): with the lock held (the
`try_to_lock` failure branch cannot fire in this

sequential model), return `would_block` if empty, else move
`buf_[out_]` out, advance `out_`, then `producers_.notify_one()`. -/
def try_get_buffered [Inhabited Val] (st : chanState Val) : getResult Val :=
  if is_empty st then
    .err .would_block
  else
    .ok (st.buf.getD st.outIdx default) (advanceOut st) [.producers_one]

/-- `try_get_unbuffered` (lines 254-271): with the lock held, return
`would_block` if `!has_val_`, else move `val_` out, set
`has_val_ = false`, then `producers_.notify_all()`. -/
def try_get_unbuffered (st : chanState Val) : getResult Val :=
  if !st.has_val then
    .err .would_block
  else
    .ok st.val { st with has_val := false } [.producers_all]

/-- `try_get` (lines 228-233): if `closed_`, return
`unexpected(channel_error::channel_closed)`; otherwise dispatch on
`is_buffered()`. -/
def try_get [Inhabited Val] (st : chanState Val) : getResult Val :=
  if st.closed then
    .err .channel_closed
  else if is_buffered st then
    try_get_buffered st
  else
    try_get_unbuffered st

/-- The default-constructed `channel<T, N>`: value-initialised array of
`N` copies of the default value, `in_ = out_ = 0`, `has_val_ = false`,
`closed_ = false`. -/
def emptyChan (Val : Type) [Inhabited Val] (n : Nat) : chanState Val :=
  { buf := List.replicate n default,
    inIdx := 0, outIdx := 0,
    val := default, has_val := false, closed := false }

/-- Number of items currently held in the ring buffer, as determined by
the indices: the distance from `out_` forward to `in_` modulo the
capacity. -/
def itemCount (st : chanState Val) : Nat :=
  (st.inIdx + st.buf.length - st.outIdx) % st.buf.length

/-- A value is immediately available to a receiver: a non-empty ring
for a buffered channel, a pending rendezvous value otherwise. -/
def valueAvailable (st : chanState Val) : Bool :=
  if is_buffered st then !is_empty st else st.has_val

/-- The public operations of the channel, used to speak about arbitrary
operation sequences. -/
inductive chanOp (Val : Type) where
  | opPut : Val → chanOp Val
  | opGet : chanOp Val
  | opTryGet : chanOp Val
  | opClose : chanOp Val
  | opIsClosed : chanOp Val
  | opIsBuffered : chanOp Val
deriving DecidableEq, Repr

/-- Channel state after one public operation: the new state when the
operation completes, the unchanged state when it blocks, throws or
returns an error (no field is written on those paths). -/
def stateAfter [Inhabited Val] (st : chanState Val) : chanOp Val → chanState Val
  | .opPut v =>
      match put st v with
      | .ok s _ => s
      | _ => st
  | .opGet =>
      match get st with
      | .ok _ s _ => s
      | _ => st
  | .opTryGet =>
      match try_get st with
      | .ok _ s _ => s
      | _ => st
  | .opClose => (close st).1
  | .opIsClosed => st
  | .opIsBuffered => st

/-- Channel state after a sequence of public operations. -/
def stateAfterSeq [Inhabited Val] (st : chanState Val) (ops : List (chanOp Val)) :
    chanState Val :=
  ops.foldl stateAfter st

/-- Run a list of `put` calls in order; `none` as soon as one of them
does not complete (blocks or throws). -/
def putMany [Inhabited Val] (st : chanState Val) : List Val → Option (chanState Val)
  | [] => some st
  | v :: vs =>
      match put st v with
      | .ok s _ => putMany s vs
      | _ => none

/-- One step of a sequential send/receive trace. -/
inductive bufOp (Val : Type) where
  | send : Val → bufOp Val
  | recv : bufOp Val
deriving DecidableEq, Repr

/-- The values deposited by the send steps of a trace, in order. -/
def sentValues : List (bufOp Val) → List Val
  | [] => []
  | .send v :: rest => v :: sentValues rest
  | .recv :: rest => sentValues rest

/-- Run a sequential trace of blocking `put` and `get` calls.  The run
yields the final state together with the list of received values, and
is `none` as soon as an operation fails to complete (blocks, throws, or
returns an error): such a trace is not a trace of successful operations. -/
def runTrace [Inhabited Val] (st : chanState Val) :
    List (bufOp Val) → Option (chanState Val × List Val)
  | [] => some (st, [])
  | .send v :: rest =>
      match put st v with
      | .ok s _ => runTrace s rest
      | _ => none
  | .recv :: rest =>
      match get st with
      | .ok v s _ => Option.map (fun p => (p.1, v :: p.2)) (runTrace s rest)
      | _ => none

/-- The received value of a `get` or `try_get` outcome, when it has one. -/
def receivedValue : getResult Val → Option Val
  | .ok v _ _ => some v
  | _ => none

/-- The post-state of a `get` or `try_get` outcome, when it completes. -/
def resultState : getResult Val → Option (chanState Val)
  | .ok _ s _ => some s
  | _ => none

/-- Whether a `put` outcome reports its failure as a returned
`channel_error` value. -/
def putIsErrKind : putResult Val → Bool
  | .err _ => true
  | _ => false

/-- A closed buffered channel of capacity 2 still holding one item
(the value 7 at slot 0). -/
def closedNonEmpty : chanState Nat :=
  { buf := [7, 0], inIdx := 1, outIdx := 0, val := 0, has_val := false, closed := true }

/-- An open buffered channel of capacity 2 whose ring is full for the
code (`is_full` holds with a single buffered item). -/
def fullTwo : chanState Nat :=
  { buf := [5, 0], inIdx := 1, outIdx := 0, val := 0, has_val := false, closed := false }

/-- An open, closed-flag-false buffered channel of capacity 2 holding
one item (the value 7 at slot 0). -/
def openNonEmpty : chanState Nat :=
  { buf := [7, 0], inIdx := 1, outIdx := 0, val := 0, has_val := false, closed := false }

/-- A closed empty buffered channel of capacity 2. -/
def closedEmpty : chanState Nat :=
  { buf := [0, 0], inIdx := 0, outIdx := 0, val := 0, has_val := false, closed := true }

/-- The default-constructed rendezvous channel (`N = 0`). -/
def rdvEmpty : chanState Nat := emptyChan Nat 0

/-- The default-constructed channel with `N = 1`. -/
def oneCap : chanState Nat := emptyChan Nat 1

/-- The capacity-3 channel after the two sends of values 10 and 20. -/
def twoOfThree : chanState Nat :=
  { buf := [10, 20, 0], inIdx := 2, outIdx := 0, val := 0, has_val := false, closed := false }

/-- The capacity-2 channel after one send of the value 1. -/
def oneOfTwo : chanState Nat :=
  { buf := [1, 0], inIdx := 1, outIdx := 0, val := 0, has_val := false, closed := false }

/-- A concrete sequential trace: send 1, receive, send 2, receive. -/
def traceTwo : List (bufOp Nat) := [.send 1, .recv, .send 2, .recv]

/-- Invariant of a buffered channel state reached by a run that has
performed the sends of `sent` (in order) and `r` receives: the indices
are the send and receive counters reduced modulo the capacity, and the
window of not-yet-received items sits in the ring at the reduced
positions of their send counters. -/
structure BufInv [Inhabited Val] (n : Nat) (sent : List Val) (r : Nat)
    (st : chanState Val) : Prop where
  hn : 2 ≤ n
  hlen : st.buf.length = n
  hclosed : st.closed = false
  hr : r ≤ sent.length
  hcount : sent.length - r ≤ n - 1
  hin : st.inIdx = sent.length % n
  hout : st.outIdx = r % n
  hwin : ∀ k, r ≤ k → k < sent.length →
    st.buf.getD (k % n) default = sent.getD k default

/-! ## Theorems -/

/-- C1: the code evaluated at a closed channel still holding one item:
both `get` and `try_get` return the `channel_closed` error instead of
the buffered item, and `closed_and_drained` is not produced, because
`get` and `try_get` test `closed_` before looking at the buffer.  This
contradicts the documentation of `is_closed` in the source ("A closed
channel ... can still be read from until it is empty") and leaves the
declared `closed_and_drained` enumerator unreachable. -/
theorem get_on_closed_nonempty_returns_channel_closed :
    itemCount closedNonEmpty = 1 ∧
    is_closed closedNonEmpty = true ∧
    get closedNonEmpty = .err .channel_closed ∧
    try_get closedNonEmpty = .err .channel_closed ∧
    get closedNonEmpty ≠ .err .closed_and_drained := by
  refine ⟨rfl, rfl, rfl, rfl, ?_⟩
  decide

/-- C2 counterexample: a sender blocked on the full capacity-2 channel
is not woken by `close`: `close` issues no notification, and after it
the wait predicate of the blocked `put` is still false (it does not
consult `closed`).  Likewise for a receiver blocked on the empty
channel.  So a blocked operation does not exit its wait when `close`
is called. -/
theorem close_does_not_wake_waiters :
    put fullTwo 9 = .blocked ∧
    (close fullTwo).2 = [] ∧
    put_buffered_wait (close fullTwo).1 = false ∧
    get (emptyChan Nat 2) = .blocked ∧
    (close (emptyChan Nat 2)).2 = [] ∧
    get_buffered_wait (close (emptyChan Nat 2)).1 = false := by
  decide

/-- C2 amended: `close` only sets the `closed` flag; it issues no
notification, and none of the four wait predicates consults `closed`,
so a thread blocked in a send (channel full / rendezvous value pending)
or in a receive (channel empty / no rendezvous value) at the moment
`close` is called still has a false wait predicate afterwards and
receives no wakeup. -/
theorem close_sets_flag_and_wakes_nobody (st : chanState Val) :
    (close st).1 = { st with closed := true } ∧
    (close st).2 = [] ∧
    (is_full st = true → put_buffered_wait (close st).1 = false) ∧
    (is_empty st = true → get_buffered_wait (close st).1 = false) ∧
    (st.has_val = true → put_unbuffered_wait (close st).1 = false) ∧
    (st.has_val = false → get_unbuffered_wait (close st).1 = false) := by
  refine ⟨rfl, rfl, ?_, ?_, ?_, ?_⟩ <;>
    intro h <;>
    simp_all [close, put_buffered_wait, get_buffered_wait,
      put_unbuffered_wait, get_unbuffered_wait, is_full, is_empty]

/-- C2 amended, witness at the full capacity-2 channel. -/
theorem close_sets_flag_and_wakes_nobody_witness :
    put_buffered_wait (close fullTwo).1 = false :=
  (close_sets_flag_and_wakes_nobody fullTwo).2.2.1 (by decide)

/-- C3 counterexample: on a closed channel, `put` does not fail with a
returned error kind at all: it throws
`std::runtime_error("Error: attempted to put to a closed channel.")`.
No `channel_error` value is produced (the enum has no send-on-closed
member and `put` returns `void`). -/
theorem put_on_closed_throws_not_error_kind :
    put closedEmpty 5 =
      .thrown "Error: attempted to put to a closed channel." closedEmpty ∧
    putIsErrKind (put closedEmpty 5) = false :=
  ⟨rfl, rfl⟩

/-- C3 amended: `put` on a closed channel fails by throwing a
`runtime_error` exception rather than returning an error value; the
item is not placed and the channel state is exactly as before the call
(the exception is thrown before any field is written). -/
theorem put_on_closed_throws (st : chanState Val) (v : Val)
    (h : st.closed = true) :
    put st v = .thrown "Error: attempted to put to a closed channel." st := by
  simp [put, h]

/-- C3 amended, witness at a concrete closed channel. -/
theorem put_on_closed_throws_witness :
    put closedNonEmpty 5 =
      .thrown "Error: attempted to put to a closed channel." closedNonEmpty :=
  put_on_closed_throws closedNonEmpty 5 rfl

/-- C5 counterexample: on the empty open rendezvous channel, a send
completes immediately — `put` returns success while the deposited value
is still sitting in the channel (`has_val = true`) and no receive has
occurred, so a send is not paired with a receive before it returns. -/
theorem rendezvous_send_returns_before_receive :
    put rdvEmpty 42 =
      .ok { buf := [], inIdx := 0, outIdx := 0, val := 42,
            has_val := true, closed := false } [.consumers_all] ∧
    valueAvailable
      { buf := [], inIdx := 0, outIdx := 0, val := 42,
        has_val := true, closed := false } = true :=
  ⟨rfl, rfl⟩

/-- C5 amended: a rendezvous send waits only until the slot is free
(no previous undelivered value); it deposits its value and returns at
once, with the value still in the channel, without waiting for a
receiver.  When a previous value is still pending the send blocks. -/
theorem rendezvous_send_deposits_and_returns (st : chanState Val) (v : Val)
    (hopen : st.closed = false) (hrdv : st.buf.length ≤ 1) :
    (st.has_val = false →
      put st v = .ok { st with val := v, has_val := true } [.consumers_all]) ∧
    (st.has_val = true → put st v = .blocked) := by
  constructor <;> intro h <;>
    simp [put, hopen, is_buffered, Nat.not_lt.mpr hrdv,
      put_unbuffered, put_unbuffered_wait, h]

/-- C5 amended, witness at the empty rendezvous channel. -/
theorem rendezvous_send_deposits_and_returns_witness :
    put rdvEmpty 42 =
      .ok { rdvEmpty with val := 42, has_val := true } [.consumers_all] :=
  (rendezvous_send_deposits_and_returns rdvEmpty 42 rfl (by decide)).1 rfl

/-- C6 counterexample: for `N = 1` the capacity satisfies `N ≥ 1`, yet
`is_buffered` is false (the code tests `buf_.size() > 1`), and a `put`
on the `N = 1` channel takes the rendezvous path: the value lands in
the single rendezvous cell `val_`, not in the ring buffer. -/
theorem is_buffered_false_at_one :
    1 ≤ oneCap.buf.length ∧
    is_buffered oneCap = false ∧
    put oneCap 3 = .ok { oneCap with val := 3, has_val := true } [.consumers_all] := by
  refine ⟨by decide, rfl, ?_⟩
  decide

/-- C6 amended: `is_buffered` returns true exactly when `N ≥ 2`; both
`N = 0` and `N = 1` select the rendezvous slot-storage path and every
`N ≥ 2` selects the ring-buffer path for the receive operations. -/
theorem is_buffered_iff_two_le [Inhabited Val] (st : chanState Val) :
    (is_buffered st = true ↔ 2 ≤ st.buf.length) ∧
    (st.closed = false →
      (2 ≤ st.buf.length →
        get st = get_buffered st ∧ try_get st = try_get_buffered st) ∧
      (st.buf.length ≤ 1 →
        get st = get_unbuffered st ∧ try_get st = try_get_unbuffered st)) := by
  refine ⟨?_, ?_⟩
  · simp [is_buffered]
    omega
  · intro hopen
    constructor <;> intro hcap
    · constructor <;> simp [get, try_get, hopen, is_buffered] <;> omega
    · constructor <;> simp [get, try_get, hopen, is_buffered] <;> omega

/-- C6 amended, witness at the `N = 1` channel. -/
theorem is_buffered_iff_two_le_witness :
    get oneCap = get_unbuffered oneCap :=
  (((is_buffered_iff_two_le oneCap).2 rfl).2 (by decide)).1

/-- No single public operation resets a true `closed` flag: completing,
blocking, throwing and error paths all leave it true. -/
theorem stateAfter_preserves_closed [Inhabited Val] (st : chanState Val)
    (op : chanOp Val) (h : st.closed = true) :
    (stateAfter st op).closed = true := by
  cases op <;> simp [stateAfter, put, get, try_get, close, h]

/-- `closed` stays true across any sequence of public operations. -/
theorem stateAfterSeq_preserves_closed [Inhabited Val]
    (ops : List (chanOp Val)) (st : chanState Val) (h : st.closed = true) :
    (stateAfterSeq st ops).closed = true := by
  induction ops generalizing st with
  | nil => simpa [stateAfterSeq] using h
  | cons op rest ih =>
      have hstep := stateAfter_preserves_closed st op h
      simpa [stateAfterSeq] using ih (stateAfter st op) hstep

/-- C8: the `closed` flag is monotonic: a fresh channel starts with it
false, `close` sets it true from any state, and once true it remains
true after every sequence of public operations (send, receive, try
receive, queries, further closes), since no operation ever writes
`closed = false`. -/
theorem closed_monotonic (Val : Type) [Inhabited Val] (n : Nat)
    (st st0 : chanState Val) (ops : List (chanOp Val))
    (h : st.closed = true) :
    (emptyChan Val n).closed = false ∧
    is_closed (stateAfter st0 .opClose) = true ∧
    is_closed (stateAfterSeq st ops) = true := by
  refine ⟨rfl, ?_, ?_⟩
  · simp [stateAfter, close, is_closed]
  · simpa [is_closed] using stateAfterSeq_preserves_closed ops st h

/-- C8 witness: once closed, the flag survives a put, a get, a try_get
and a second close. -/
theorem closed_monotonic_witness :
    (emptyChan Nat 2).closed = false ∧
    is_closed (stateAfter closedEmpty .opClose) = true ∧
    is_closed (stateAfterSeq closedNonEmpty
      [.opPut 1, .opGet, .opTryGet, .opClose, .opIsClosed]) = true :=
  closed_monotonic Nat 2 closedNonEmpty closedEmpty
    [.opPut 1, .opGet, .opTryGet, .opClose, .opIsClosed] rfl

/-- C9: no public operation ever produces the error value
`closed_and_drained`: `get` and `try_get` return `channel_closed` as
soon as the channel is closed, whatever the buffer holds, and `put`
never returns an error value at all, so the declared enumerator is
unreachable from the public surface. -/
theorem closed_and_drained_unreachable [Inhabited Val]
    (st : chanState Val) (v : Val) :
    get st ≠ .err .closed_and_drained ∧
    try_get st ≠ .err .closed_and_drained ∧
    put st v ≠ .err .closed_and_drained ∧
    (st.closed = true →
      get st = .err .channel_closed ∧ try_get st = .err .channel_closed) := by
  unfold get try_get put get_buffered get_unbuffered try_get_buffered
    try_get_unbuffered put_buffered put_unbuffered
  refine ⟨?_, ?_, ?_, fun h => ?_⟩ <;> split_ifs <;> simp_all

/-- C9 witness: at a closed channel still holding an item, both receive
paths report `channel_closed`, not `closed_and_drained`. -/
theorem closed_and_drained_unreachable_witness :
    get closedNonEmpty = .err .channel_closed ∧
    try_get closedNonEmpty = .err .channel_closed :=
  (closed_and_drained_unreachable closedNonEmpty 0).2.2.2 rfl

/-- C10: whenever the channel is open and a value is available (ring
non-empty in buffered mode, rendezvous value pending otherwise),
`try_get` completes and returns the same item with the same post-state
as `get` would from that state: the non-blocking receive refines the
blocking one whenever it can make progress. -/
theorem try_get_refines_get [Inhabited Val] (st : chanState Val)
    (hopen : st.closed = false) (havail : valueAvailable st = true) :
    receivedValue (try_get st) = receivedValue (get st) ∧
    resultState (try_get st) = resultState (get st) ∧
    (receivedValue (get st)).isSome = true := by
  unfold valueAvailable at havail
  by_cases hb : is_buffered st = true
  · have hne : is_empty st = false := by
      by_contra hc
      simp [hb] at havail
      simp [havail] at hc
    simp [get, try_get, get_buffered, try_get_buffered, get_buffered_wait,
      hopen, hb, hne, receivedValue, resultState]
  · have hb2 : is_buffered st = false := by simpa using hb
    have hv : st.has_val = true := by simpa [hb2] using havail
    simp [get, try_get, get_unbuffered, try_get_unbuffered,
      get_unbuffered_wait, hopen, hb2, hv, receivedValue, resultState]

/-- C10 witness at an open capacity-2 channel holding the item 7. -/
theorem try_get_refines_get_witness :
    receivedValue (try_get openNonEmpty) = receivedValue (get openNonEmpty) ∧
    resultState (try_get openNonEmpty) = resultState (get openNonEmpty) ∧
    (receivedValue (get openNonEmpty)).isSome = true :=
  try_get_refines_get openNonEmpty rfl rfl

/-- C4 counterexample: for capacity `N = 2`, two consecutive sends from
the empty channel do not both complete: the second blocks, because the
code marks the ring full as soon as it holds one item
(`(in_ + 1) % N == out_`, the one-slot-wasted test), even though the
claim allows a send to wait only once `N` items are buffered. -/
theorem second_send_blocks_at_capacity_two :
    putMany (emptyChan Nat 2) [1, 2] = none ∧
    itemCount oneOfTwo = 1 ∧
    is_full oneOfTwo = true ∧
    put oneOfTwo 2 = .blocked := by
  decide

/-- Filling lemma: from a state with `out_ = 0` and room below `N - 1`,
a list of sends all complete and only advance `in_`. -/
theorem putMany_fills [Inhabited Val] (n : Nat) (hn : 2 ≤ n) :
    ∀ (vs : List Val) (st : chanState Val),
      st.closed = false → st.buf.length = n → st.outIdx = 0 →
      st.inIdx + vs.length ≤ n - 1 →
      ∃ st2, putMany st vs = some st2 ∧ st2.closed = false ∧
        st2.buf.length = n ∧ st2.outIdx = 0 ∧
        st2.inIdx = st.inIdx + vs.length := by
  intro vs
  induction vs with
  | nil =>
      intro st h1 h2 h3 h4
      exact ⟨st, rfl, h1, h2, h3, by simp⟩
  | cons v vs ih =>
      intro st h1 h2 h3 h4
      have hlc : (v :: vs).length = vs.length + 1 := by simp
      have hin : st.inIdx + 1 < n := by omega
      have hmod : (st.inIdx + 1) % st.buf.length = st.inIdx + 1 := by
        rw [h2]
        exact Nat.mod_eq_of_lt hin
      have hnotfull : is_full st = false := by
        simp [is_full, hmod, h3]
      have hbuf : is_buffered st = true := by
        simp [is_buffered, h2]
        omega
      have hput : put st v = .ok (deposit st v) [.consumers_all] := by
        simp [put, h1, hbuf, put_buffered, put_buffered_wait, hnotfull]
      have hni : (deposit st v).inIdx = st.inIdx + 1 := by
        simpa [deposit] using hmod
      obtain ⟨st2, hrun, hc, hl, ho, hi⟩ :=
        ih (deposit st v) (by simpa [deposit] using h1)
          (by simpa [deposit] using h2) (by simpa [deposit] using h3)
          (by rw [hni]; omega)
      refine ⟨st2, ?_, hc, hl, ho, ?_⟩
      · simpa [putMany, hput] using hrun
      · rw [hni] at hi
        omega

/-- C4 amended: for a buffered channel (declared capacity `N ≥ 2`), the
code treats the ring as full once it holds `N - 1` items: starting from
the empty open channel, `N - 1` consecutive sends all complete without
blocking, after which `is_full` holds with `N - 1` buffered items and
any further send blocks. -/
theorem fills_at_capacity_minus_one (Val : Type) [Inhabited Val] (n : Nat)
    (hn : 2 ≤ n) (vs : List Val) (hlen : vs.length = n - 1) :
    (putMany (emptyChan Val n) vs).isSome = true ∧
    ∀ st2, putMany (emptyChan Val n) vs = some st2 →
      is_full st2 = true ∧ itemCount st2 = n - 1 ∧
      ∀ v, put st2 v = .blocked := by
  obtain ⟨st2, hrun, hc, hl, ho, hi⟩ :=
    putMany_fills n hn vs (emptyChan Val n) rfl (by simp [emptyChan]) rfl
      (by simp [emptyChan, hlen])
  have hi2 : st2.inIdx = n - 1 := by simpa [emptyChan, hlen] using hi
  have hsucc : n - 1 + 1 = n := by omega
  have hfull : is_full st2 = true := by
    simp [is_full, hl, ho, hi2, hsucc, Nat.mod_self]
  have hbuf2 : is_buffered st2 = true := by
    simp [is_buffered, hl]
    omega
  refine ⟨by simp [hrun], fun stb hb => ?_⟩
  have hsame : stb = st2 := by
    rw [hrun] at hb
    exact (Option.some_inj.mp hb).symm
  rw [hsame]
  refine ⟨hfull, ?_, fun v => ?_⟩
  · have hcnt : itemCount st2 = (n - 1 + n) % n := by
      simp [itemCount, hl, ho, hi2]
    rw [hcnt]
    have h1n : n - 1 + n = n - 1 + 1 * n := by ring
    rw [h1n, Nat.add_mul_mod_self_right]
    exact Nat.mod_eq_of_lt (by omega)
  · simp [put, hc, hbuf2, put_buffered, put_buffered_wait, hfull]

/-- C4 amended, witness: capacity 3, two sends fill the channel and a
third blocks. -/
theorem fills_at_capacity_minus_one_witness :
    (putMany (emptyChan Nat 3) [10, 20]).isSome = true ∧
    is_full twoOfThree = true ∧ itemCount twoOfThree = 2 ∧
    put twoOfThree 30 = .blocked := by
  have h := fills_at_capacity_minus_one Nat 3 (by decide) [10, 20] (by decide)
  have h2 := h.2 twoOfThree (by decide)
  exact ⟨h.1, h2.1, h2.2.1, h2.2.2 30⟩

/-- Two distinct send counters of the live window (whose span is below
the capacity) land on distinct ring positions. -/
theorem window_mod_ne (n k s : Nat) (hk : k < s) (hs : s - k < n) :
    ¬ k % n = s % n := by
  intro h
  have hd : n ∣ s - k := (Nat.modEq_iff_dvd' hk.le).mp h
  have hle := Nat.le_of_dvd (by omega) hd
  omega

/-- Taking the successor commutes with reduction modulo the capacity. -/
theorem succ_mod_eq (n a : Nat) (hn : 2 ≤ n) :
    (a % n + 1) % n = (a + 1) % n := by
  conv_rhs => rw [Nat.add_mod]
  rw [Nat.mod_eq_of_lt (show 1 < n by omega)]

/-- Reading back the position just written. -/
theorem getD_set_self (l : List Val) (i : Nat) (v d : Val) (h : i < l.length) :
    (l.set i v).getD i d = v := by
  induction l generalizing i with
  | nil => simp at h
  | cons a t ih =>
      cases i with
      | zero => rfl
      | succ j => simpa using ih j (by simpa using h)

/-- Writing one position leaves the others unchanged. -/
theorem getD_set_of_ne (l : List Val) (i j : Nat) (v d : Val) (h : ¬ i = j) :
    (l.set i v).getD j d = l.getD j d := by
  induction l generalizing i j with
  | nil => simp
  | cons a t ih =>
      cases i with
      | zero =>
          cases j with
          | zero => exact absurd rfl h
          | succ jj => simp
      | succ ii =>
          cases j with
          | zero => simp
          | succ jj => simpa using ih ii jj (by omega)

/-- Under the invariant, the ring is empty exactly when every sent item
has already been received. -/
theorem BufInv.empty_iff [Inhabited Val] {n : Nat} {sent : List Val} {r : Nat}
    {st : chanState Val} (h : BufInv n sent r st) :
    is_empty st = true ↔ sent.length = r := by
  constructor
  · intro he
    have hmods : r % n = sent.length % n := by
      have hio : st.inIdx = st.outIdx := by simpa [is_empty] using he
      rw [h.hin, h.hout] at hio
      exact hio.symm
    have hd : n ∣ sent.length - r := (Nat.modEq_iff_dvd' h.hr).mp hmods
    have hc := h.hcount
    have hn := h.hn
    rcases Nat.eq_zero_or_pos (sent.length - r) with h0 | hpos
    · have hr := h.hr
      omega
    · have := Nat.le_of_dvd hpos hd
      omega
  · intro he
    simp [is_empty, h.hin, h.hout, he]

/-- Under the invariant, a window of `N - 1` unreceived items makes the
ring full for the code. -/
theorem BufInv.full_of_count [Inhabited Val] {n : Nat} {sent : List Val}
    {r : Nat} {st : chanState Val} (h : BufInv n sent r st)
    (hc : sent.length - r = n - 1) : is_full st = true := by
  have hn := h.hn
  have hr := h.hr
  have hd : n ∣ sent.length + 1 - r := by
    have heq : sent.length + 1 - r = n := by omega
    simp [heq]
  have hmods : r % n = (sent.length + 1) % n :=
    (Nat.modEq_iff_dvd' (by omega)).mpr hd
  simp [is_full, h.hlen, h.hin, h.hout, succ_mod_eq n sent.length hn, ← hmods]

/-- A successful send on a non-full ring: `put` deposits at `in_`,
notifies consumers, and the invariant carries over with the new value
appended to the send history. -/
theorem BufInv.send [Inhabited Val] {n : Nat} {sent : List Val} {r : Nat}
    {st : chanState Val} (h : BufInv n sent r st)
    (hnf : is_full st = false) (v : Val) :
    put st v = .ok (deposit st v) [.consumers_all] ∧
    BufInv n (sent ++ [v]) r (deposit st v) := by
  have hn := h.hn
  have hr := h.hr
  have hcount := h.hcount
  have hbuf : is_buffered st = true := by
    simp [is_buffered, h.hlen]
    omega
  have hcne : ¬ sent.length - r = n - 1 := by
    intro hc
    rw [h.full_of_count hc] at hnf
    simp at hnf
  refine ⟨?_, ?_⟩
  · simp [put, h.hclosed, hbuf, put_buffered, put_buffered_wait, hnf]
  · refine ⟨hn, by simp [deposit, h.hlen], by simp [deposit, h.hclosed],
      by simp; omega, by simp; omega,
      by simp [deposit, h.hlen, h.hin, succ_mod_eq n sent.length hn],
      by simp [deposit, h.hout], ?_⟩
    intro k hk1 hk2
    have hlen2 : (sent ++ [v]).length = sent.length + 1 := by simp
    rw [hlen2] at hk2
    have hidx : st.inIdx = sent.length % n := h.hin
    rcases Nat.lt_succ_iff_lt_or_eq.mp hk2 with hlt | heq
    · have hne : ¬ k % n = sent.length % n :=
        window_mod_ne n k sent.length hlt (by omega)
      have hstep : (st.buf.set st.inIdx v).getD (k % n) default
          = st.buf.getD (k % n) default := by
        rw [hidx]
        exact getD_set_of_ne _ _ _ _ _ (fun hh => hne hh.symm)
      calc (deposit st v).buf.getD (k % n) default
          = st.buf.getD (k % n) default := hstep
        _ = sent.getD k default := h.hwin k hk1 hlt
        _ = (sent ++ [v]).getD k default := (List.getD_append _ _ _ _ hlt).symm
    · subst heq
      have hmod : sent.length % n < st.buf.length := by
        rw [h.hlen]
        exact Nat.mod_lt _ (by omega)
      have hleft : (deposit st v).buf.getD (sent.length % n) default = v := by
        show (st.buf.set st.inIdx v).getD (sent.length % n) default = v
        rw [hidx]
        exact getD_set_self _ _ _ _ hmod
      have hright : (sent ++ [v]).getD sent.length default = v := by
        rw [List.getD_append_right _ _ _ _ (le_refl _)]
        simp
      rw [hleft, hright]

/-- A successful receive on a non-empty ring: `get` returns the oldest
unreceived item (the `r`-th sent value), advances `out_`, notifies
producers, and the invariant carries over with one more receive. -/
theorem BufInv.recv [Inhabited Val] {n : Nat} {sent : List Val} {r : Nat}
    {st : chanState Val} (h : BufInv n sent r st)
    (hne : is_empty st = false) :
    r < sent.length ∧
    get st = .ok (sent.getD r default) (advanceOut st) [.producers_all] ∧
    BufInv n sent (r + 1) (advanceOut st) := by
  have hn := h.hn
  have hr := h.hr
  have hcount := h.hcount
  have hbuf : is_buffered st = true := by
    simp [is_buffered, h.hlen]
    omega
  have hrlt : r < sent.length := by
    rcases Nat.lt_or_ge r sent.length with hlt | hge
    · exact hlt
    · have heq : sent.length = r := by omega
      rw [h.empty_iff.mpr heq] at hne
      simp at hne
  refine ⟨hrlt, ?_, ?_⟩
  · have hval : st.buf.getD st.outIdx default = sent.getD r default := by
      rw [h.hout]
      exact h.hwin r (le_refl r) hrlt
    have hval2 : st.buf[st.outIdx]?.getD default = sent[r]?.getD default := by
      simpa using hval
    simp [get, h.hclosed, hbuf, get_buffered, get_buffered_wait, hne, hval2]
  · refine ⟨hn, by simp [advanceOut, h.hlen], by simp [advanceOut, h.hclosed],
      by omega, by omega, by simp [advanceOut, h.hin], ?_, ?_⟩
    · show (st.outIdx + 1) % st.buf.length = (r + 1) % n
      rw [h.hout, h.hlen, succ_mod_eq n r hn]
    · intro k hk1 hk2
      simpa [advanceOut] using h.hwin k (by omega) hk2

/-- The run of a trace from an invariant state receives exactly the
oldest unreceived send history, in order. -/
theorem runTrace_fifo [Inhabited Val] (tr : List (bufOp Val)) :
    ∀ (n : Nat) (sent : List Val) (r : Nat) (st st2 : chanState Val)
      (outs : List Val),
      BufInv n sent r st →
      runTrace st tr = some (st2, outs) →
      outs = ((sent ++ sentValues tr).drop r).take outs.length := by
  induction tr with
  | nil =>
      intro n sent r st st2 outs hinv hrun
      simp [runTrace] at hrun
      rw [hrun.2]
      simp
  | cons op rest ih =>
      cases op with
      | send v =>
          intro n sent r st st2 outs hinv hrun
          have hbuf : is_buffered st = true := by
            have hn := hinv.hn
            simp [is_buffered, hinv.hlen]
            omega
          by_cases hf : is_full st = true
          · have hblock : put st v = .blocked := by
              simp [put, hinv.hclosed, hbuf, put_buffered, put_buffered_wait, hf]
            simp [runTrace, hblock] at hrun
          · have hnf : is_full st = false := by simpa using hf
            obtain ⟨hput, hinv2⟩ := hinv.send hnf v
            rw [show runTrace st (.send v :: rest) = runTrace (deposit st v) rest
              from by simp [runTrace, hput]] at hrun
            have ih2 := ih n (sent ++ [v]) r (deposit st v) st2 outs hinv2 hrun
            simpa [sentValues, List.append_assoc] using ih2
      | recv =>
          intro n sent r st st2 outs hinv hrun
          by_cases he : is_empty st = true
          · have hbuf : is_buffered st = true := by
              have hn := hinv.hn
              simp [is_buffered, hinv.hlen]
              omega
            have hblock : get st = .blocked := by
              simp [get, hinv.hclosed, hbuf, get_buffered, get_buffered_wait, he]
            simp [runTrace, hblock] at hrun
          · obtain ⟨hrlt, hget, hinv2⟩ := hinv.recv (by simpa using he)
            rw [show runTrace st (.recv :: rest)
                = Option.map (fun p => (p.1, sent.getD r default :: p.2))
                  (runTrace (advanceOut st) rest)
              from by simp [runTrace, hget]] at hrun
            cases hq : runTrace (advanceOut st) rest with
            | none =>
                rw [hq] at hrun
                simp at hrun
            | some p =>
                rw [hq] at hrun
                have hpair : p.1 = st2 ∧ sent.getD r default :: p.2 = outs := by
                  simpa using hrun
                have houts : outs = sent.getD r default :: p.2 := hpair.2.symm
                have ih2 := ih n sent (r + 1) (advanceOut st) p.1 p.2 hinv2
                  (by rw [hq])
                have hLlen : r < (sent ++ sentValues rest).length := by
                  rw [List.length_append]
                  omega
                have ha : sent.getD r default
                    = (sent ++ sentValues rest).getD r default :=
                  (List.getD_append _ _ _ _ hrlt).symm
                have hcons : (sent ++ sentValues rest).drop r
                    = (sent ++ sentValues rest).getD r default
                      :: (sent ++ sentValues rest).drop (r + 1) := by
                  rw [List.drop_eq_getElem_cons hLlen,
                    List.getD_eq_getElem _ _ hLlen]
                simp only [sentValues]
                rw [houts, List.length_cons, hcons, List.take_succ_cons,
                  ← ha, ← ih2]

/-- C7: sequential FIFO delivery for buffered channels: for every
capacity `N ≥ 2` and every sequential trace of `put` and `get` calls
that all complete (none blocks, throws, or errors — in particular the
trace respects the capacity bound enforced by `is_full` and never reads
an empty channel), the list of received values is exactly the prefix of
the list of sent values: the `k`-th successful receive returns the item
deposited by the `k`-th successful send, with no loss and no
duplication. -/
theorem buffered_fifo (Val : Type) [Inhabited Val] (n : Nat) (hn : 2 ≤ n)
    (tr : List (bufOp Val)) (st2 : chanState Val) (outs : List Val)
    (hrun : runTrace (emptyChan Val n) tr = some (st2, outs)) :
    outs = (sentValues tr).take outs.length := by
  have hinv : BufInv n ([] : List Val) 0 (emptyChan Val n) := by
    refine ⟨hn, by simp [emptyChan], rfl, le_refl 0, by simp,
      by simp [emptyChan], by simp [emptyChan], ?_⟩
    intro k hk1 hk2
    simp at hk2
  simpa using runTrace_fifo tr n [] 0 (emptyChan Val n) st2 outs hinv hrun

/-- C7 witness: the trace send 1, receive, send 2, receive on the
capacity-2 channel receives `[1, 2]`, the sent values in order. -/
theorem buffered_fifo_witness :
    ([1, 2] : List Nat) = (sentValues traceTwo).take (List.length ([1, 2] : List Nat)) :=
  buffered_fifo Nat 2 (by decide) traceTwo
    ⟨[1, 2], 0, 0, 0, false, false⟩ [1, 2] (by decide)

end Channels
